import Mathlib

/-!
Verification of the stock-scraping pipeline in `scrape_stocks.py`.

We give a shallow embedding of the program's core routines:
the value normalizer `convert_to_numeric`, the retry navigator
`scrape_with_retry`, the weekly-snapshot creation `get_weekly_sheet`,
the column-completing loader `load_weekly_dataframe`, and the main
per-row update loop together with its final flush.

Machine floats are modelled in two layers: `pyFloat` parses the finite
decimal numerals into `ℚ` (exactly), and `pyFloatX` extends it with
`float()`'s special spellings `inf`/`infinity`/`nan`, represented
symbolically in `PyFloatVal` since `ℚ` has no such points.  Python
exceptions that the source catches are modelled by `Option`.  Python's
`str.replace(c, "")` for a one-character pattern is character
filtering, and `str.strip()` is dropping whitespace from both ends.
-/

namespace StockScrape

/-- Greedy run of decimal digits at the head of the character list,
returned together with the remainder (models a `\d*` regex segment and
the digit runs consumed by `float()`). -/
def takeDigits : List Char → List Char × List Char
  | [] => ([], [])
  | c :: cs =>
    if c.isDigit then
      let p := takeDigits cs
      (c :: p.1, p.2)
    else ([], c :: cs)

/-- Numeric value of a digit run. -/
def digitsToNat (ds : List Char) : Nat :=
  ds.foldl (fun a c => 10 * a + (c.toNat - 48)) 0

/-- Python `str.strip()`: drop whitespace from both ends. -/
def pyStrip (cs : List Char) : List Char :=
  ((cs.dropWhile Char.isWhitespace).reverse.dropWhile Char.isWhitespace).reverse

/-- Python `str.replace(a, "")` for a one-character pattern `a`:
remove every occurrence of that character. -/
def removeAll (a : Char) (cs : List Char) : List Char :=
  cs.filter (fun c => c ≠ a)

/-- Leading sign of a numeral: `(negative?, rest)`. -/
def splitSign (cs : List Char) : Bool × List Char :=
  match cs with
  | c :: t =>
    if c = '-' then (true, t)
    else if c = '+' then (false, t)
    else (false, c :: t)
  | [] => (false, [])

/-- Exact rational value of the decimal numeral with sign `neg`,
integer digits `ip`, fractional digits `fp` and signed decimal exponent
`(expNeg, e)`.  All arithmetic happens in `Nat`/`Int` and one `mkRat`
builds the value, mirroring the exact decimal that `float()` rounds. -/
def decimalToRat (neg : Bool) (ip fp : List Char) (expNeg : Bool) (e : Nat) : ℚ :=
  let m : Nat := digitsToNat ip * 10 ^ fp.length + digitsToNat fp
  let num : Int := if neg then -(m : Int) else (m : Int)
  if expNeg then mkRat num (10 ^ fp.length * 10 ^ e)
  else mkRat (num * (10 ^ e : Nat)) (10 ^ fp.length)

/-- Exponent suffix of a Python float literal: after the mantissa,
either the string ends, or an `e`/`E` followed by an optional sign and a
nonempty digit run ends it; anything else makes `float()` raise
(modelled as `none`). -/
def expPart (neg : Bool) (ip fp : List Char) : List Char → Option ℚ
  | [] => some (decimalToRat neg ip fp false 0)
  | c :: cs =>
    if c = 'e' ∨ c = 'E' then
      let sc := splitSign cs
      let p := takeDigits sc.2
      if p.1 = [] ∨ p.2 ≠ [] then none
      else some (decimalToRat neg ip fp sc.1 (digitsToNat p.1))
    else none

/-- Python `float(s)` restricted to finite decimal numerals: strip
surrounding whitespace, optional sign, integer digits, optional
fractional part, optional exponent.  `float()` additionally accepts the
special spellings `inf`/`infinity`/`nan` — see `pyFloatX`, which layers
them on top of this ℚ-valued core — and underscore-grouped digit
literals (PEP 515), which no claim input contains and which are
omitted. -/
def pyFloat (cs : List Char) : Option ℚ :=
  let sc := splitSign (pyStrip cs)
  let ip := takeDigits sc.2
  match ip.2 with
  | c :: t =>
    if c = '.' then
      let fp := takeDigits t
      if ip.1 = [] ∧ fp.1 = [] then none
      else expPart sc.1 ip.1 fp.1 fp.2
    else if ip.1 = [] then none else expPart sc.1 ip.1 [] (c :: t)
  | [] => if ip.1 = [] then none else expPart sc.1 ip.1 [] []

/-- Match of the regex `-?\d+\.?\d*` anchored at the current position:
an optional minus that must be followed by at least one digit, the
greedy digit run, an optional dot, and a greedy trailing digit run. -/
def matchNumCore (cs : List Char) : Option (List Char) :=
  let p := takeDigits cs
  if p.1 = [] then none
  else
    match p.2 with
    | c :: t => if c = '.' then some (p.1 ++ '.' :: (takeDigits t).1) else some p.1
    | [] => some p.1

/-- Anchored match including the optional leading minus (a minus not
followed by a digit matches nothing at this position). -/
def matchNum : List Char → Option (List Char)
  | [] => matchNumCore []
  | c :: cs =>
    if c = '-' then (matchNumCore cs).map (fun m => '-' :: m)
    else matchNumCore (c :: cs)

/-- `re.search(r"-?\d+\.?\d*", s)`: leftmost anchored match. -/
def searchNum : List Char → Option (List Char)
  | [] => none
  | c :: cs =>
    match matchNum (c :: cs) with
    | some m => some m
    | none => searchNum cs

/-- `value.replace(",", "").replace("₹", "").strip()`: the cleaned
string `convert_to_numeric` works on. -/
def cleanValue (s : List Char) : List Char :=
  pyStrip (removeAll '₹' (removeAll ',' s))

/-- `convert_to_numeric` from `scrape_stocks.py`.  `none` input models
Python `None`; the empty string is falsy, so both short-circuit to
`None`.  Otherwise commas and the rupee sign are removed and the string
stripped; if a percent sign remains, the whole percent-free stripped
string is parsed with `float()` (a failure is caught and yields `None`);
otherwise the first `-?\d+\.?\d*` match is parsed. -/
def convert_to_numeric : Option (List Char) → Option ℚ
  | none => none
  | some s =>
    if s = [] then none
    else if '%' ∈ cleanValue s then pyFloat (pyStrip (removeAll '%' (cleanValue s)))
    else
      match searchNum (cleanValue s) with
      | some m => pyFloat m
      | none => none

/-- The value of a Python `float`: a finite (decimal) number, a signed
infinity, or `nan`.  `ℚ` covers the finite points; the special points
are symbolic. -/
inductive PyFloatVal where
  | fin : ℚ → PyFloatVal
  | inf : Bool → PyFloatVal
  | nan : PyFloatVal
deriving DecidableEq

/-- ASCII lowercasing, as used by `float()`'s case-insensitive match of
its special spellings. -/
def lowerAscii (c : Char) : Char :=
  if 'A' ≤ c ∧ c ≤ 'Z' then Char.ofNat (c.toNat + 32) else c

/-- `float()`'s special spellings after the sign: `inf`/`infinity`
(case-insensitive) give a signed infinity, `nan` gives `nan` (whose
sign is immaterial). -/
def specialVal (neg : Bool) (cs : List Char) : Option PyFloatVal :=
  let low := cs.map lowerAscii
  if low = "inf".toList ∨ low = "infinity".toList then some (PyFloatVal.inf neg)
  else if low = "nan".toList then some PyFloatVal.nan
  else none

/-- Full Python `float(s)`: after stripping and the optional sign,
either a special spelling or a finite decimal numeral (the `pyFloat`
core). -/
def pyFloatX (cs : List Char) : Option PyFloatVal :=
  match specialVal (splitSign (pyStrip cs)).1 (splitSign (pyStrip cs)).2 with
  | some v => some v
  | none => (pyFloat cs).map PyFloatVal.fin

/-- Whether the string spells a `float()` special value (stripped,
optionally signed). -/
def isSpecialFloat (cs : List Char) : Bool :=
  (specialVal (splitSign (pyStrip cs)).1 (splitSign (pyStrip cs)).2).isSome

/-- `convert_to_numeric` once more, with `float()`'s special spellings
represented: this is the faithful top-level model of the normalizer,
refining `convert_to_numeric` wherever the parsed value is finite.  The
regex branch hands `float()` only matched numerals, so special values
can enter solely through the percent branch. -/
def convert_to_numeric_x : Option (List Char) → Option PyFloatVal
  | none => none
  | some s =>
    if s = [] then none
    else if '%' ∈ cleanValue s then pyFloatX (pyStrip (removeAll '%' (cleanValue s)))
    else
      match searchNum (cleanValue s) with
      | some m => pyFloatX m
      | none => none

/-! ## Retry navigator (`scrape_with_retry`)

One loop iteration = one attempt: it always begins with `page.goto`
(the driver's navigate call), so the number of navigate invocations is
the number of iterations run.  `outcome attempt` tells whether attempt
number `attempt` reaches the final `wait_for_selector` without a fault.
The result is the returned boolean paired with the number of navigate
invocations. -/

/-- The `for attempt in range(1, retry + 1)` loop of `scrape_with_retry`:
`fuel` is the number of attempts still allowed, `attempt` the 1-based
number of the next one.  A successful attempt returns `true` at once;
a faulted attempt falls through to the next; exhausting the range
returns `false`. -/
def scrapeAttempts (outcome : Nat → Bool) : Nat → Nat → Bool × Nat
  | _, 0 => (false, 0)
  | attempt, Nat.succ fuel =>
    if outcome attempt then (true, 1)
    else
      let p := scrapeAttempts outcome (attempt + 1) fuel
      (p.1, p.2 + 1)

/-- `scrape_with_retry(page, search_text, retry)`: run up to `retry`
attempts starting at attempt 1; returns (loaded?, navigate calls). -/
def scrape_with_retry (outcome : Nat → Bool) (retry : Nat) : Bool × Nat :=
  scrapeAttempts outcome 1 retry

/-- Driver that faults on attempts 1 and 2 and succeeds on attempt 3. -/
def outcomeThird : Nat → Bool := fun n => n == 3

/-- Driver that faults on every attempt. -/
def outcomeNever : Nat → Bool := fun _ => false

/-- Driver that faults on attempt 1 and succeeds on attempt 2. -/
def outcomeSecond : Nat → Bool := fun n => n == 2

/-! ## Weekly sheet creation (`get_weekly_sheet`) -/

/-- A worksheet as the tabular store sees it: its declared row/column
counts and its cell grid. -/
structure Worksheet where
  nrows : Nat
  ncols : Nat
  grid : List (List String)
deriving DecidableEq

/-- A freshly added worksheet: `r × c` cells, all empty. -/
def blankGrid (r c : Nat) : List (List String) :=
  List.replicate r (List.replicate c "")

/-- `ws.update("A1", vals)`: write the grid `vals` into the sheet
starting at the first cell, leaving cells beyond each written row and
below the written rows as they were. -/
def overlay : List (List String) → List (List String) → List (List String)
  | g, [] => g
  | [], v :: vs => v :: overlay [] vs
  | gr :: g, v :: vs => (v ++ gr.drop v.length) :: overlay g vs

/-- Cell `(i, j)` of a grid, empty when out of range. -/
def gridCell (g : List (List String)) (i j : Nat) : String :=
  (g.getD i []).getD j ""

/-- The creation branch of `get_weekly_sheet`: size the new sheet at
`max(len(all_values), 100)` rows and
`max(len(all_values[0]) if all_values else 10, 10)` columns, then copy
the base contents to `A1` when the base is nonempty. -/
def createWeeklyFromBase (base : List (List String)) : Worksheet :=
  let r := max base.length 100
  let c := max (match base with | [] => 10 | row :: _ => row.length) 10
  let ws : Worksheet := ⟨r, c, blankGrid r c⟩
  if base.isEmpty then ws else { ws with grid := overlay ws.grid base }

/-- `get_weekly_sheet`: look the weekly title up in the spreadsheet's
worksheets; reuse it when found, otherwise create it from the base
sheet's values. -/
def get_weekly_sheet (store : List (String × Worksheet)) (weekly_title : String)
    (base : List (List String)) : Worksheet :=
  match store.find? (fun p => p.1 == weekly_title) with
  | some p => p.2
  | none => createWeeklyFromBase base

/-- Base-sheet contents used by the concrete witnesses. -/
def sampleBase : List (List String) :=
  [["Stock Name", "Symbol", "Quantity"], ["Tata Consultancy", "TCS", "5"]]

/-! ## Dataset model

A dataframe cell is a string, a number, or the null value (Python
`None` / pandas `NaN`).  A row maps column names to cells. -/

/-- A dataframe cell. -/
inductive Value where
  | str : String → Value
  | num : ℚ → Value
  | null : Value
deriving DecidableEq

/-- A dataframe row: column name to cell. -/
def Row : Type := String → Value

/-- `df.loc[index, c] = v` restricted to one row. -/
def setCell (r : Row) (c : String) (v : Value) : Row :=
  fun x => if x = c then v else r x

/-- Row whose every cell is null; used as the `getD` default. -/
def defaultRow : Row := fun _ => Value.null

/-- The metric catalog `metric_locators` of `scrape_stocks.py`:
metric column name paired with its XPath locator. -/
def metric_locators : List (String × String) :=
  [("ROCE", "//*[@id=\"top-ratios\"]/li[7]/span[2]/span"),
   ("Intrinsic Value", "//*[@id=\"top-ratios\"]/li[10]/span[2]/span"),
   ("ROE", "//*[@id=\"top-ratios\"]/li[8]/span[2]/span"),
   ("Debt to Equity", "//*[@id=\"top-ratios\"]/li[12]/span[2]/span"),
   ("PEG", "//*[@id=\"top-ratios\"]/li[11]/span[2]/span"),
   ("Dividend Yield", "//*[@id=\"top-ratios\"]/li[6]/span[2]/span"),
   ("Current Price", "//*[@id=\"top-ratios\"]/li[2]/span[2]/span"),
   ("High", "//*[@id=\"top-ratios\"]/li[3]/span[2]/span[1]"),
   ("Low", "//*[@id=\"top-ratios\"]/li[3]/span[2]/span[2]"),
   ("Profit Var 10Yrs", "//*[@id=\"top-ratios\"]/li[13]/span[2]/span"),
   ("Sales Var 10Yrs", "//*[@id=\"top-ratios\"]/li[14]/span[2]/span")]

/-- The metric column names, in catalog order. -/
def metricNames : List String := metric_locators.map Prod.fst

/-- Python `str()` of a cell, as used on `row["Symbol"]`.  The exact
numeral spelling of a number is irrelevant downstream (only whether the
strip of the result is empty matters), so the `ℚ` printer stands in for
Python's float printer; `None`/`NaN` prints as `"nan"`. -/
def pyStr : Value → String
  | .str s => s
  | .num q => toString q
  | .null => "nan"

/-! ## Timestamps (`get_current_ist_timestamp`) -/

/-- The broken-down IST time (UTC already shifted by +5:30 by the
external datetime library). -/
structure TimeFields where
  year : Nat
  month : Nat
  day : Nat
  hour : Nat
  minute : Nat
  second : Nat
deriving DecidableEq

/-- Two-digit zero padding of `strftime`. -/
def pad2 (n : Nat) : String :=
  if n < 10 then "0" ++ toString n else toString n

/-- Four-digit zero padding of `strftime`'s `%Y`. -/
def pad4 (n : Nat) : String :=
  if n < 10 then "000" ++ toString n
  else if n < 100 then "00" ++ toString n
  else if n < 1000 then "0" ++ toString n
  else toString n

/-- `ist_now.strftime("%Y-%m-%d %H:%M:%S IST")`. -/
def formatISTTimestamp (t : TimeFields) : String :=
  pad4 t.year ++ "-" ++ pad2 t.month ++ "-" ++ pad2 t.day ++ " " ++
    pad2 t.hour ++ ":" ++ pad2 t.minute ++ ":" ++ pad2 t.second ++ " IST"

/-! ## The per-row update loop of `main` -/

/-- The external world one run observes, per row index: whether
`scrape_with_retry` succeeds for that row, what raw text
`get_metric_value` yields for each metric, and the wall clock read by
`get_current_ist_timestamp`. -/
structure RunEnv where
  navOk : Nat → Bool
  rawValue : Nat → String → Option (List Char)
  clock : Nat → TimeFields

/-- The value stored by
`df.loc[index, metric] = numeric_value if numeric_value is not None else raw_value`:
the normalized number when normalization succeeds, otherwise the raw
text, otherwise Python `None`. -/
def encodeExtract (raw : Option (List Char)) : Value :=
  match convert_to_numeric raw with
  | some q => Value.num q
  | none =>
    match raw with
    | some s => Value.str (String.mk s)
    | none => Value.null

/-- One iteration of `for index, row in df.iterrows()`: skip when the
stripped symbol is empty; on navigation success write every metric from
the extraction and stamp `LastUpdated`; on failure write the
`"Error / Unavailable"` sentinel into every metric and stamp
`LastUpdated`. -/
def process_row (env : RunEnv) (i : Nat) (r : Row) : Row :=
  if pyStrip (pyStr (r "Symbol")).toList = [] then r
  else if env.navOk i then
    let r1 := metricNames.foldl (fun acc m => setCell acc m (encodeExtract (env.rawValue i m))) r
    setCell r1 "LastUpdated" (Value.str (formatISTTimestamp (env.clock i)))
  else
    let r1 := metricNames.foldl (fun acc m => setCell acc m (Value.str "Error / Unavailable")) r
    setCell r1 "LastUpdated" (Value.str (formatISTTimestamp (env.clock i)))

/-- The whole row loop, `i` being the index of the first row. -/
def runRows (env : RunEnv) : Nat → List Row → List Row
  | _, [] => []
  | i, r :: rs => process_row env i r :: runRows env (i + 1) rs

/-- The in-memory dataframe: column order plus rows. -/
structure Df where
  cols : List String
  rows : List Row

/-- `[df.columns.tolist()] + df.values.tolist()`: the header row
followed by every data row, each laid out in column order. -/
def dfGrid (df : Df) : List (List Value) :=
  (df.cols.map Value.str) :: df.rows.map (fun r => df.cols.map r)

/-- An operation the run performs on the weekly worksheet (the sink). -/
inductive SinkEvent where
  | clear : SinkEvent
  | update : List (List Value) → SinkEvent
deriving DecidableEq

/-- `main` after the dataframe is loaded: run the row loop purely in
memory (it touches no sheet), then `weekly_ws.clear()` followed by one
bulk `weekly_ws.update(...)` of header plus all rows. -/
def run_main (env : RunEnv) (df : Df) : Df × List SinkEvent :=
  let df2 : Df := { df with rows := runRows env 0 df.rows }
  (df2, [SinkEvent.clear, SinkEvent.update (dfGrid df2)])

/-! ## Column completion (`load_weekly_dataframe`) -/

/-- A just-loaded dataframe: cells may still be missing (`none`, pandas
`NaN`), and its column list is explicit. -/
structure RawDf where
  cols : List String
  rows : List (String → Option Value)

/-- Cell `x` of row `i` (`none` when the row does not exist, otherwise
the cell, itself possibly missing). -/
def cellOf (rows : List (String → Option Value)) (i : Nat) (x : String) :
    Option (Option Value) :=
  (rows[i]?).map (fun r => r x)

/-- Cell `x` of row `i` with a missing cell read as the empty string. -/
def filledCellOf (rows : List (String → Option Value)) (i : Nat) (x : String) :
    Option (Option Value) :=
  (rows[i]?).map (fun r => some ((r x).getD (Value.str "")))

/-- `df.fillna("")`: every missing cell becomes the empty string. -/
def fillna (d : RawDf) : RawDf :=
  { d with rows := d.rows.map (fun r c => some ((r c).getD (Value.str ""))) }

/-- `if col not in df.columns: df[col] = ""`. -/
def ensureColumn (d : RawDf) (c : String) : RawDf :=
  if c ∈ d.cols then d
  else { cols := d.cols ++ [c],
         rows := d.rows.map (fun r x => if x = c then some (Value.str "") else r x) }

/-- The columns `load_weekly_dataframe` guarantees, in the order the
source checks them: the base columns, then every metric, then
`LastUpdated`. -/
def requiredColumns : List String :=
  ["Stock Name", "Symbol", "Quantity"] ++ metricNames ++ ["LastUpdated"]

/-- Which records seed the dataframe: the weekly sheet's when nonempty,
else the base sheet's. -/
def selectedRecords (weekly base : RawDf) : RawDf :=
  if weekly.rows.isEmpty then base else weekly

/-- `load_weekly_dataframe`: seed from the weekly (or, if empty, base)
records, `fillna("")`, then add each absent required column as empty. -/
def load_weekly_dataframe (weekly base : RawDf) : RawDf :=
  requiredColumns.foldl ensureColumn (fillna (selectedRecords weekly base))

/-! ## Concrete inputs for the witnesses -/

/-- A row whose symbol is `TCS` and whose other cells are null. -/
def sampleRow : Row := fun c => if c = "Symbol" then Value.str "TCS" else Value.null

/-- A row whose symbol cell is whitespace-only. -/
def sampleRowBlank : Row :=
  fun c => if c = "Symbol" then Value.str "   " else Value.str "x"

/-- An environment whose navigation always succeeds and that extracts
`15.2%` for ROCE and nothing for the other metrics. -/
def sampleEnvOk : RunEnv :=
  { navOk := fun _ => true
  , rawValue := fun _ m => if m = "ROCE" then some "15.2%".toList else none
  , clock := fun _ => ⟨2025, 10, 12, 9, 30, 0⟩ }

/-- An environment whose navigation always fails. -/
def sampleEnvFail : RunEnv :=
  { navOk := fun _ => false
  , rawValue := fun _ _ => none
  , clock := fun _ => ⟨2025, 10, 12, 9, 30, 0⟩ }

/-- A loaded weekly frame lacking every metric column and `LastUpdated`,
with one missing cell (`Quantity`). -/
def sampleWeekly : RawDf :=
  { cols := ["Stock Name", "Symbol", "Quantity"]
  , rows := [fun c =>
      if c = "Symbol" then some (Value.str "TCS")
      else if c = "Stock Name" then some (Value.str "Tata Consultancy")
      else none] }

/-- An empty base frame (the weekly frame above is nonempty, so it is
never consulted). -/
def sampleBaseDf : RawDf := { cols := [], rows := [] }

/-! ## Helper lemmas -/

/-- A driver that faults on every attempt makes the loop run through
all its fuel and report one navigation per attempt. -/
lemma scrapeAttempts_never (a n : Nat) :
    scrapeAttempts outcomeNever a n = (false, n) := by
  induction n generalizing a with
  | zero => rfl
  | succ n ih => simp [scrapeAttempts, outcomeNever, ih]

/-- If attempts `a, …, k-1` fault and attempt `k` succeeds within the
fuel, the loop stops right after attempt `k`, having navigated
`k - a + 1` times. -/
lemma scrapeAttempts_first_success (outcome : Nat → Bool) (a n k : Nat)
    (ha : a ≤ k) (hk : k < a + n)
    (hfail : ∀ j, a ≤ j → j < k → outcome j = false)
    (hsucc : outcome k = true) :
    scrapeAttempts outcome a n = (true, k - a + 1) := by
  induction n generalizing a with
  | zero => omega
  | succ n ih =>
    by_cases hak : a = k
    · subst hak
      simp [scrapeAttempts, hsucc]
    · have h1 : outcome a = false := hfail a le_rfl (by omega)
      have h2 : scrapeAttempts outcome (a + 1) n = (true, k - (a + 1) + 1) :=
        ih (a + 1) (by omega) (by omega) (fun j hj1 hj2 => hfail j (by omega) hj2)
      have h3 : scrapeAttempts outcome a (n + 1) =
          ((scrapeAttempts outcome (a + 1) n).1, (scrapeAttempts outcome (a + 1) n).2 + 1) := by
        simp [scrapeAttempts, h1]
      rw [h3, h2]
      have : k - (a + 1) + 1 + 1 = k - a + 1 := by omega
      simp [this]

/-- Removing occurrences of a character only removes characters. -/
lemma mem_of_mem_removeAll {c a : Char} {cs : List Char}
    (h : c ∈ removeAll a cs) : c ∈ cs :=
  (List.mem_filter.1 h).1

/-- A character other than `a` survives `removeAll a`. -/
lemma mem_removeAll_of_ne {c a : Char} {cs : List Char}
    (hc : c ∈ cs) (hne : c ≠ a) : c ∈ removeAll a cs := by
  exact List.mem_filter.2 ⟨hc, by simpa using hne⟩

/-- Stripping only removes characters. -/
lemma mem_of_mem_pyStrip {c : Char} {cs : List Char}
    (h : c ∈ pyStrip cs) : c ∈ cs := by
  unfold pyStrip at h
  rw [List.mem_reverse] at h
  have h2 := List.dropWhile_subset (l := (cs.dropWhile Char.isWhitespace).reverse)
    Char.isWhitespace h
  rw [List.mem_reverse] at h2
  exact List.dropWhile_subset Char.isWhitespace h2

/-- A non-whitespace member survives `dropWhile isWhitespace`. -/
lemma mem_dropWhile_of_not_ws {c : Char} :
    ∀ {cs : List Char}, c ∈ cs → c.isWhitespace = false →
      c ∈ cs.dropWhile Char.isWhitespace
  | [], h, _ => by simp at h
  | a :: cs, h, hw => by
    by_cases ha : a.isWhitespace
    · rw [List.dropWhile_cons_of_pos ha]
      rcases List.mem_cons.1 h with h | h
      · subst h; rw [hw] at ha; simp at ha
      · exact mem_dropWhile_of_not_ws h hw
    · rw [List.dropWhile_cons_of_neg ha]
      exact h

/-- A non-whitespace member survives the strip. -/
lemma mem_pyStrip_of_not_ws {c : Char} {cs : List Char}
    (hc : c ∈ cs) (hw : c.isWhitespace = false) : c ∈ pyStrip cs := by
  unfold pyStrip
  rw [List.mem_reverse]
  exact mem_dropWhile_of_not_ws (List.mem_reverse.2 (mem_dropWhile_of_not_ws hc hw)) hw

/-- The cleaning steps of `convert_to_numeric` neither create nor
destroy percent signs. -/
lemma percent_mem_cleanValue {s : List Char} :
    '%' ∈ cleanValue s ↔ '%' ∈ s := by
  constructor
  · intro h
    exact mem_of_mem_removeAll (mem_of_mem_removeAll (mem_of_mem_pyStrip h))
  · intro h
    exact mem_pyStrip_of_not_ws
      (mem_removeAll_of_ne (mem_removeAll_of_ne h (by decide)) (by decide)) (by decide)

/-- A digit-free string yields no digit run. -/
lemma takeDigits_nodigit {cs : List Char} (h : ∀ c ∈ cs, c.isDigit = false) :
    takeDigits cs = ([], cs) := by
  cases cs with
  | nil => rfl
  | cons c t => simp [takeDigits, h c (List.mem_cons_self c t)]

/-- The anchored numeric pattern needs a digit. -/
lemma matchNumCore_nodigit {cs : List Char} (h : ∀ c ∈ cs, c.isDigit = false) :
    matchNumCore cs = none := by
  simp [matchNumCore, takeDigits_nodigit h]

/-- The anchored numeric pattern (with optional minus) needs a digit. -/
lemma matchNum_nodigit {cs : List Char} (h : ∀ c ∈ cs, c.isDigit = false) :
    matchNum cs = none := by
  cases cs with
  | nil => simp [matchNum, matchNumCore_nodigit h]
  | cons c t =>
    have ht : ∀ x ∈ t, x.isDigit = false :=
      fun x hx => h x (List.mem_cons_of_mem _ hx)
    by_cases hc : c = '-'
    · subst hc
      simp [matchNum, matchNumCore_nodigit ht]
    · simp [matchNum, hc, matchNumCore_nodigit h]

/-- `re.search` of the numeric pattern fails on a digit-free string. -/
lemma searchNum_nodigit : ∀ {cs : List Char},
    (∀ c ∈ cs, c.isDigit = false) → searchNum cs = none
  | [], _ => rfl
  | c :: t, h => by
    simp only [searchNum, matchNum_nodigit h]
    exact searchNum_nodigit (fun x hx => h x (List.mem_cons_of_mem _ hx))

/-- Dropping a sign only drops characters. -/
lemma mem_of_mem_splitSign {c : Char} {cs : List Char}
    (h : c ∈ (splitSign cs).2) : c ∈ cs := by
  cases cs with
  | nil => simp [splitSign] at h
  | cons a t =>
    by_cases h1 : a = '-'
    · subst h1
      simp only [splitSign, if_pos rfl] at h
      exact List.mem_cons_of_mem _ h
    · by_cases h2 : a = '+'
      · subst h2
        simp only [splitSign, if_neg (by decide : ¬('+' : Char) = '-'), if_pos rfl] at h
        exact List.mem_cons_of_mem _ h
      · simpa [splitSign, h1, h2] using h

/-- `float()` fails on a digit-free string (within the finite-decimal
model). -/
lemma pyFloat_nodigit {cs : List Char} (h : ∀ c ∈ cs, c.isDigit = false) :
    pyFloat cs = none := by
  have hsign : ∀ c ∈ (splitSign (pyStrip cs)).2, c.isDigit = false :=
    fun c hc => h c (mem_of_mem_pyStrip (mem_of_mem_splitSign hc))
  cases hsc : (splitSign (pyStrip cs)).2 with
  | nil => simp [pyFloat, hsc, takeDigits]
  | cons c t =>
    have ht : ∀ x ∈ t, x.isDigit = false :=
      fun x hx => hsign x (by rw [hsc]; exact List.mem_cons_of_mem _ hx)
    have h1 : takeDigits (c :: t) = ([], c :: t) :=
      takeDigits_nodigit (by rw [← hsc]; exact hsign)
    by_cases hdot : c = '.'
    · subst hdot
      simp [pyFloat, hsc, h1, takeDigits_nodigit ht]
    · simp [pyFloat, hsc, h1, hdot]

/-- Writing `f m` into column `m` for every `m` in `ns` leaves column
`x` at `f x` when `x ∈ ns` and untouched otherwise. -/
lemma foldl_setCell_apply (f : String → Value) :
    ∀ (ns : List String) (r : Row) (x : String),
      (ns.foldl (fun acc m => setCell acc m (f m)) r) x =
        if x ∈ ns then f x else r x := by
  intro ns
  induction ns with
  | nil => intro r x; simp
  | cons m ns ih =>
    intro r x
    rw [List.foldl_cons, ih]
    by_cases hx : x ∈ ns
    · simp [hx, List.mem_cons]
    · by_cases hxm : x = m
      · subst hxm
        simp [hx, setCell]
      · simp [hx, hxm, setCell]

/-- A `strftime`-formatted timestamp is never the empty string (it ends
in the fixed `" IST"` zone label). -/
lemma formatISTTimestamp_ne_empty (t : TimeFields) : formatISTTimestamp t ≠ "" := by
  intro h
  have hl := congrArg String.length h
  simp only [formatISTTimestamp, String.length_append] at hl
  rw [show (" IST" : String).length = 4 from rfl,
    show ("" : String).length = 0 from rfl] at hl
  omega

/-- Row `i` of the loop output is row `i` of the input pushed through
`process_row` at index `first + i`. -/
lemma runRows_getD (env : RunEnv) :
    ∀ (k : Nat) (rows : List Row) (i : Nat), i < rows.length →
      (runRows env k rows).getD i defaultRow =
        process_row env (k + i) (rows.getD i defaultRow) := by
  intro k rows
  induction rows generalizing k with
  | nil => intro i hi; simp at hi
  | cons r rs ih =>
    intro i hi
    cases i with
    | zero => simp [runRows]
    | succ n =>
      have hn : n < rs.length := by simpa using hi
      have := ih (k + 1) n hn
      simp only [runRows, List.getD_cons_succ]
      rw [this, show k + 1 + n = k + (n + 1) by omega]

/-- `getD` on a replicated list. -/
lemma getD_replicate {α : Type} (n i : Nat) (x d : α) :
    (List.replicate n x).getD i d = if i < n then x else d := by
  rw [List.getD_eq_getElem?_getD, List.getElem?_replicate]
  split <;> rfl

/-- Every cell of a freshly added worksheet is empty. -/
lemma gridCell_blank (r c i j : Nat) : gridCell (blankGrid r c) i j = "" := by
  unfold gridCell blankGrid
  rw [getD_replicate]
  split
  · rw [getD_replicate]
    split <;> rfl
  · rfl

/-- After writing `vals` at `A1`, every cell covered by `vals` holds the
written value. -/
lemma overlay_cell : ∀ (vals g : List (List String)) (i j : Nat),
    i < vals.length → j < (vals.getD i []).length →
    gridCell (overlay g vals) i j = (vals.getD i []).getD j "" := by
  intro vals
  induction vals with
  | nil => intro g i j hi _; simp at hi
  | cons v vs ih =>
    intro g i j hi hj
    cases g with
    | nil =>
      cases i with
      | zero => rfl
      | succ n =>
        have hn : n < vs.length := by simpa using hi
        have hj' : j < (vs.getD n []).length := by simpa using hj
        exact ih [] n j hn hj'
    | cons gr gt =>
      cases i with
      | zero =>
        have hjv : j < v.length := by simpa using hj
        show ((v ++ gr.drop v.length).getD j "") = v.getD j ""
        rw [List.getD_eq_getElem?_getD, List.getElem?_append_left hjv,
          ← List.getD_eq_getElem?_getD]
      | succ n =>
        have hn : n < vs.length := by simpa using hi
        have hj' : j < (vs.getD n []).length := by simpa using hj
        exact ih gt n j hn hj'

/-- Adding one column keeps the number of rows. -/
lemma ensureColumn_rows_length (d : RawDf) (c : String) :
    (ensureColumn d c).rows.length = d.rows.length := by
  unfold ensureColumn
  split
  · rfl
  · simp

/-- Completing many columns keeps the number of rows. -/
lemma foldl_ensure_rows_length : ∀ (ns : List String) (d : RawDf),
    (ns.foldl ensureColumn d).rows.length = d.rows.length
  | [], _ => rfl
  | c :: ns, d => by
    rw [List.foldl_cons, foldl_ensure_rows_length ns (ensureColumn d c),
      ensureColumn_rows_length]

/-- Adding one column keeps every present column present. -/
lemma ensureColumn_cols_mono {x : String} {d : RawDf} (c : String) (h : x ∈ d.cols) :
    x ∈ (ensureColumn d c).cols := by
  unfold ensureColumn
  split
  · exact h
  · exact List.mem_append_left _ h

/-- After `ensureColumn d c` the column `c` is present. -/
lemma ensureColumn_cols_self (d : RawDf) (c : String) : c ∈ (ensureColumn d c).cols := by
  unfold ensureColumn
  split
  · assumption
  · exact List.mem_append_right _ (List.mem_singleton.2 rfl)

/-- Completing many columns keeps every present column present. -/
lemma foldl_ensure_cols_mono : ∀ (ns : List String) (d : RawDf) (x : String),
    x ∈ d.cols → x ∈ (ns.foldl ensureColumn d).cols
  | [], _, _, h => h
  | c :: ns, d, x, h => by
    rw [List.foldl_cons]
    exact foldl_ensure_cols_mono ns _ x (ensureColumn_cols_mono c h)

/-- Every completed column ends up present. -/
lemma foldl_ensure_cols_mem : ∀ (ns : List String) (d : RawDf) (c : String),
    c ∈ ns → c ∈ (ns.foldl ensureColumn d).cols
  | [], _, _, h => absurd h (List.not_mem_nil _)
  | c0 :: ns, d, c, h => by
    rw [List.foldl_cons]
    rcases List.mem_cons.1 h with h | h
    · subst h
      exact foldl_ensure_cols_mono ns _ c (ensureColumn_cols_self d c)
    · exact foldl_ensure_cols_mem ns _ c h

/-- Adding one column leaves the data of present columns untouched. -/
lemma ensureColumn_cell_of_mem {d : RawDf} {x : String} (c : String)
    (hx : x ∈ d.cols) (i : Nat) :
    cellOf (ensureColumn d c).rows i x = cellOf d.rows i x := by
  unfold ensureColumn
  split
  · rfl
  · rename_i hc
    unfold cellOf
    show ((d.rows.map _)[i]?).map _ = _
    rw [List.getElem?_map, Option.map_map]
    apply Option.map_congr
    intro r _
    have hxc : ¬x = c := fun he => hc (he ▸ hx)
    simp [Function.comp, hxc]

/-- Completing columns leaves the data of present columns untouched. -/
lemma foldl_ensure_cell_preserve : ∀ (ns : List String) (d : RawDf) (x : String),
    x ∈ d.cols → ∀ i,
    cellOf (ns.foldl ensureColumn d).rows i x = cellOf d.rows i x
  | [], _, _, _, _ => rfl
  | c :: ns, d, x, hx, i => by
    rw [List.foldl_cons,
      foldl_ensure_cell_preserve ns (ensureColumn d c) x (ensureColumn_cols_mono c hx) i,
      ensureColumn_cell_of_mem c hx i]

/-- A freshly added column holds the empty string in every row. -/
lemma ensureColumn_cell_new {d : RawDf} {c : String} (hc : c ∉ d.cols) {i : Nat}
    (hi : i < d.rows.length) :
    cellOf (ensureColumn d c).rows i c = some (some (Value.str "")) := by
  unfold ensureColumn cellOf
  rw [if_neg hc]
  show ((d.rows.map _)[i]?).map _ = _
  rw [List.getElem?_map, Option.map_map, List.getElem?_eq_getElem hi]
  simp [Function.comp]

/-- A column completed because it was absent holds the empty string in
every row of the final frame. -/
lemma foldl_ensure_cell_new : ∀ (ns : List String) (d : RawDf) (c : String),
    c ∈ ns → c ∉ d.cols → ∀ i, i < d.rows.length →
    cellOf (ns.foldl ensureColumn d).rows i c = some (some (Value.str ""))
  | [], _, _, h, _, _, _ => absurd h (List.not_mem_nil _)
  | c0 :: ns, d, c, hmem, hc, i, hi => by
    rw [List.foldl_cons]
    by_cases he : c = c0
    · subst he
      rw [foldl_ensure_cell_preserve ns (ensureColumn d c) c (ensureColumn_cols_self d c) i]
      exact ensureColumn_cell_new hc hi
    · have h' : c ∈ ns := by
        rcases List.mem_cons.1 hmem with h | h
        · exact absurd h he
        · exact h
      have hc' : c ∉ (ensureColumn d c0).cols := by
        unfold ensureColumn
        split
        · exact hc
        · intro hmem2
          rcases List.mem_append.1 hmem2 with h2 | h2
          · exact hc h2
          · exact he (List.mem_singleton.1 h2)
      have hi' : i < (ensureColumn d c0).rows.length := by
        rw [ensureColumn_rows_length]
        exact hi
      exact foldl_ensure_cell_new ns _ c h' hc' i hi'

/-- `fillna("")` pointwise: a missing cell becomes the empty string, a
present cell stays. -/
lemma fillna_cell (d : RawDf) (x : String) (i : Nat) :
    cellOf (fillna d).rows i x = filledCellOf d.rows i x := by
  unfold fillna cellOf filledCellOf
  show ((d.rows.map _)[i]?).map _ = _
  rw [List.getElem?_map, Option.map_map]
  rfl

/-! ## Claim theorems -/

/-- C2: `scrape_with_retry` returns `(true, 3)` for a driver failing the
first 2 attempts and succeeding on the 3rd with `retry = 3`; returns
`false` after exactly `maxAttempts` navigations for an always-failing
driver; and a first success at attempt `k` stops immediately with
exactly `k` navigations. -/
theorem scrape_with_retry_spec :
    scrape_with_retry outcomeThird 3 = (true, 3)
    ∧ (∀ retry, 1 ≤ retry → scrape_with_retry outcomeNever retry = (false, retry))
    ∧ (∀ outcome : Nat → Bool, ∀ retry k, 1 ≤ k → k ≤ retry →
        (∀ j, 1 ≤ j → j < k → outcome j = false) → outcome k = true →
        scrape_with_retry outcome retry = (true, k)) := by
  refine ⟨by decide, ?_, ?_⟩
  · intro retry _
    exact scrapeAttempts_never 1 retry
  · intro outcome retry k h1 h2 hfail hsucc
    have h := scrapeAttempts_first_success outcome 1 retry k h1 (by omega) hfail hsucc
    rw [scrape_with_retry, h]
    have : k - 1 + 1 = k := by omega
    rw [this]

/-- Witness for C2: an always-failing driver with 3 attempts navigates
3 times and fails; a driver succeeding on its 2nd of 5 allowed attempts
returns true after exactly 2 navigations. -/
theorem scrape_with_retry_spec_witness :
    scrape_with_retry outcomeNever 3 = (false, 3)
    ∧ scrape_with_retry outcomeSecond 5 = (true, 2) := by
  constructor
  · exact scrape_with_retry_spec.2.1 3 (by decide)
  · refine scrape_with_retry_spec.2.2 outcomeSecond 5 2 (by decide) (by decide) ?_ (by decide)
    intro j h1 h2
    have : j = 1 := by omega
    subst this
    rfl

/-- C7: the normalizer's reference values: `"1,234.5" ↦ 1234.5`,
`"12.3%" ↦ 12.3`, `"₹450" ↦ 450`, `"" ↦ null`, `"N/A" ↦ null`. -/
theorem normalizer_examples :
    convert_to_numeric (some "1,234.5".toList) = some (1234.5 : ℚ)
    ∧ convert_to_numeric (some "12.3%".toList) = some (12.3 : ℚ)
    ∧ convert_to_numeric (some "₹450".toList) = some (450 : ℚ)
    ∧ convert_to_numeric (some "".toList) = none
    ∧ convert_to_numeric (some "N/A".toList) = none := by
  refine ⟨?_, ?_, by decide, by decide, by decide⟩
  · have h : convert_to_numeric (some "1,234.5".toList) = some (mkRat 2469 2) := by decide
    rw [h, Rat.mkRat_eq_div]
    norm_num
  · have h : convert_to_numeric (some "12.3%".toList) = some (mkRat 123 10) := by decide
    rw [h, Rat.mkRat_eq_div]
    norm_num

/-- A digit-free string that spells no `float()` special value fails
the full `float()`. -/
lemma pyFloatX_nodigit {cs : List Char} (h : ∀ c ∈ cs, c.isDigit = false)
    (hsp : isSpecialFloat cs = false) : pyFloatX cs = none := by
  cases hv : specialVal (splitSign (pyStrip cs)).1 (splitSign (pyStrip cs)).2 with
  | some v =>
    unfold isSpecialFloat at hsp
    rw [hv] at hsp
    simp at hsp
  | none =>
    unfold pyFloatX
    rw [hv, pyFloat_nodigit h]
    rfl

/-- Counterexample for C8: `"inf%"` contains no digit — no numeric
pattern — yet the percent branch runs `float("inf")`, which succeeds,
so the normalizer returns the number infinity rather than null. -/
theorem convert_inf_counterexample :
    convert_to_numeric_x (some "inf%".toList) = some (PyFloatVal.inf false)
    ∧ ¬convert_to_numeric_x (some "inf%".toList) = none
    ∧ (∀ c ∈ "inf%".toList, c.isDigit = false) := by
  refine ⟨by decide, by decide, by decide⟩

/-- C8 as amended: the normalizer is total — every input maps to a
number or to null (the source's catch-all `except` is the `Option`) —
and returns null on `None`, on the empty string, and on any digit-free
string, unless the cleaned percent-free form spells a `float()` special
value (`inf`/`infinity`/`nan`, optionally signed), which `float()`
accepts in the percent branch. -/
theorem convert_to_numeric_x_total :
    (∀ v : Option (List Char),
      convert_to_numeric_x v = none ∨ ∃ x, convert_to_numeric_x v = some x)
    ∧ convert_to_numeric_x none = none
    ∧ convert_to_numeric_x (some []) = none
    ∧ (∀ s : List Char, (∀ c ∈ s, c.isDigit = false) →
        isSpecialFloat (pyStrip (removeAll '%' (cleanValue s))) = false →
        convert_to_numeric_x (some s) = none) := by
  refine ⟨?_, rfl, rfl, ?_⟩
  · intro v
    cases hv : convert_to_numeric_x v with
    | none => exact Or.inl rfl
    | some x => exact Or.inr ⟨x, rfl⟩
  · intro s h hsp
    have hclean : ∀ c ∈ cleanValue s, c.isDigit = false := fun c hc =>
      h c (mem_of_mem_removeAll (mem_of_mem_removeAll (mem_of_mem_pyStrip hc)))
    by_cases hs : s = []
    · subst hs; rfl
    · simp only [convert_to_numeric_x]
      rw [if_neg hs]
      by_cases hp : '%' ∈ cleanValue s
      · rw [if_pos hp]
        exact pyFloatX_nodigit (fun c hc =>
          hclean c (mem_of_mem_removeAll (mem_of_mem_pyStrip hc))) hsp
      · rw [if_neg hp, searchNum_nodigit hclean]

/-- Witness for the amended C8: `"N/A"` is digit-free and spells no
special value, so it normalizes to null. -/
theorem convert_to_numeric_x_total_witness :
    convert_to_numeric_x (some "N/A".toList) = none :=
  convert_to_numeric_x_total.2.2.2 "N/A".toList (by decide) (by decide)

/-- C10: with a percent sign anywhere in the input, the whole cleaned
percent-free string is handed to `float()` — null on failure; the
first-number fallback runs only without a percent sign; in particular
`"12.3% yoy"` normalizes to null despite its numeric prefix. -/
theorem percent_branch_full_parse :
    (∀ s : List Char, s ≠ [] → '%' ∈ s →
      convert_to_numeric (some s) = pyFloat (pyStrip (removeAll '%' (cleanValue s))))
    ∧ (∀ s : List Char, s ≠ [] → '%' ∉ s →
      convert_to_numeric (some s) =
        match searchNum (cleanValue s) with
        | some m => pyFloat m
        | none => none)
    ∧ convert_to_numeric (some "12.3% yoy".toList) = none := by
  refine ⟨?_, ?_, by decide⟩
  · intro s hne hp
    simp only [convert_to_numeric]
    rw [if_neg hne, if_pos (percent_mem_cleanValue.2 hp)]
  · intro s hne hp
    simp only [convert_to_numeric]
    rw [if_neg hne, if_neg (fun hc => hp (percent_mem_cleanValue.1 hc))]

/-- Witness for C10: the percent branch at `"12.3% yoy"` and the
fallback branch at `"N/A"`. -/
theorem percent_branch_full_parse_witness :
    convert_to_numeric (some "12.3% yoy".toList) =
      pyFloat (pyStrip (removeAll '%' (cleanValue "12.3% yoy".toList)))
    ∧ convert_to_numeric (some "N/A".toList) =
      (match searchNum (cleanValue "N/A".toList) with
        | some m => pyFloat m
        | none => none) :=
  ⟨percent_branch_full_parse.1 "12.3% yoy".toList (by decide) (by decide),
   percent_branch_full_parse.2.1 "N/A".toList (by decide) (by decide)⟩

/-- C3: on the success path every metric column is overwritten with the
encoding of its extraction result — so its post-value never depends on
its pre-value — and a null extraction writes the null (empty) value
rather than leaving the cell stale; `LastUpdated` gets the fresh
timestamp. -/
theorem success_overwrites_metrics (env : RunEnv) (i : Nat) (r : Row)
    (hsym : ¬pyStrip (pyStr (r "Symbol")).toList = [])
    (hnav : env.navOk i = true) :
    (∀ m ∈ metricNames,
      process_row env i r m = encodeExtract (env.rawValue i m)
      ∧ (env.rawValue i m = none → process_row env i r m = Value.null))
    ∧ process_row env i r "LastUpdated" = Value.str (formatISTTimestamp (env.clock i)) := by
  have hpr : process_row env i r =
      setCell (metricNames.foldl
          (fun acc m => setCell acc m (encodeExtract (env.rawValue i m))) r)
        "LastUpdated" (Value.str (formatISTTimestamp (env.clock i))) := by
    unfold process_row
    rw [if_neg hsym, if_pos hnav]
  constructor
  · intro m hm
    have hne : ¬m = "LastUpdated" := by
      intro he
      subst he
      revert hm
      decide
    have hval : process_row env i r m = encodeExtract (env.rawValue i m) := by
      rw [hpr]
      simp only [setCell]
      rw [if_neg hne,
        foldl_setCell_apply (fun m => encodeExtract (env.rawValue i m)) metricNames r m,
        if_pos hm]
    exact ⟨hval, fun hnone => by rw [hval, hnone]; rfl⟩
  · rw [hpr]
    simp [setCell]

/-- Witness for C3: with navigation succeeding and ROCE extracted as
`15.2%`, ROCE is overwritten with the extraction's encoding, and PEG
(whose extraction is null) becomes the null value. -/
theorem success_overwrites_metrics_witness :
    process_row sampleEnvOk 0 sampleRow "ROCE" = encodeExtract (sampleEnvOk.rawValue 0 "ROCE")
    ∧ process_row sampleEnvOk 0 sampleRow "PEG" = Value.null := by
  have h := success_overwrites_metrics sampleEnvOk 0 sampleRow (by decide) rfl
  exact ⟨(h.1 "ROCE" (by decide)).1, (h.1 "PEG" (by decide)).2 (by decide)⟩

/-- C6: on the failure path every metric column receives the explicit
`"Error / Unavailable"` sentinel — distinct from both null and the
empty string — and `LastUpdated` is stamped with the (non-empty)
timestamp. -/
theorem failure_sentinel (env : RunEnv) (i : Nat) (r : Row)
    (hsym : ¬pyStrip (pyStr (r "Symbol")).toList = [])
    (hnav : env.navOk i = false) :
    (∀ m ∈ metricNames, process_row env i r m = Value.str "Error / Unavailable")
    ∧ process_row env i r "LastUpdated" = Value.str (formatISTTimestamp (env.clock i))
    ∧ formatISTTimestamp (env.clock i) ≠ ""
    ∧ Value.str "Error / Unavailable" ≠ Value.null
    ∧ Value.str "Error / Unavailable" ≠ Value.str "" := by
  have hnav' : ¬env.navOk i = true := by
    rw [hnav]
    simp
  have hpr : process_row env i r =
      setCell (metricNames.foldl
          (fun acc m => setCell acc m (Value.str "Error / Unavailable")) r)
        "LastUpdated" (Value.str (formatISTTimestamp (env.clock i))) := by
    unfold process_row
    rw [if_neg hsym, if_neg hnav']
  refine ⟨?_, ?_, formatISTTimestamp_ne_empty _, by decide, by decide⟩
  · intro m hm
    have hne : ¬m = "LastUpdated" := by
      intro he
      subst he
      revert hm
      decide
    rw [hpr]
    simp only [setCell]
    rw [if_neg hne,
      foldl_setCell_apply (fun _ => Value.str "Error / Unavailable") metricNames r m,
      if_pos hm]
  · rw [hpr]
    simp [setCell]

/-- Witness for C6: with navigation always failing, ROCE gets the
sentinel and `LastUpdated` the timestamp. -/
theorem failure_sentinel_witness :
    process_row sampleEnvFail 0 sampleRow "ROCE" = Value.str "Error / Unavailable"
    ∧ process_row sampleEnvFail 0 sampleRow "LastUpdated" =
      Value.str (formatISTTimestamp (sampleEnvFail.clock 0)) := by
  have h := failure_sentinel sampleEnvFail 0 sampleRow (by decide) rfl
  exact ⟨h.1 "ROCE" (by decide), h.2.1⟩

/-- C9: a row whose symbol strips to empty is skipped: every one of its
cells — metric, `LastUpdated`, and base columns alike — is unchanged by
a run. -/
theorem skipped_row_unchanged (env : RunEnv) (rows : List Row) (i : Nat)
    (hi : i < rows.length)
    (hsym : pyStrip (pyStr ((rows.getD i defaultRow) "Symbol")).toList = []) :
    ∀ c, (runRows env 0 rows).getD i defaultRow c = (rows.getD i defaultRow) c := by
  intro c
  rw [runRows_getD env 0 rows i hi]
  unfold process_row
  rw [if_pos hsym]

/-- Witness for C9: a whitespace-only symbol row keeps its ROCE cell. -/
theorem skipped_row_unchanged_witness :
    (runRows sampleEnvOk 0 [sampleRowBlank]).getD 0 defaultRow "ROCE" =
      sampleRowBlank "ROCE" :=
  skipped_row_unchanged sampleEnvOk [sampleRowBlank] 0 (by decide) (by decide) "ROCE"

/-- C1: when no worksheet with the weekly title exists, the created one
is sized `max(base rows, 100) × max(base columns, 10)`; a nonempty
base's contents are copied cell-for-cell starting at the first cell;
an empty base yields an entirely empty snapshot. -/
theorem weekly_sheet_creation (store : List (String × Worksheet)) (title : String)
    (base : List (List String))
    (hfind : store.find? (fun p => p.1 == title) = none) :
    (get_weekly_sheet store title base).nrows = max base.length 100
    ∧ (get_weekly_sheet store title base).ncols = max (base.headD []).length 10
    ∧ (∀ i j, i < base.length → j < (base.getD i []).length →
        gridCell (get_weekly_sheet store title base).grid i j = (base.getD i []).getD j "")
    ∧ (base = [] → ∀ i j, gridCell (get_weekly_sheet store title base).grid i j = "") := by
  have hg : get_weekly_sheet store title base = createWeeklyFromBase base := by
    unfold get_weekly_sheet
    rw [hfind]
  rw [hg]
  refine ⟨?_, ?_, ?_, ?_⟩
  · cases base <;> rfl
  · cases base <;> rfl
  · intro i j hi hj
    cases base with
    | nil => simp at hi
    | cons v vs => exact overlay_cell (v :: vs) _ i j hi hj
  · intro hb i j
    subst hb
    exact gridCell_blank _ _ i j

/-- Witness for C1: a 2-row, 3-column base with no pre-existing weekly
sheet produces a 100 × 10 snapshot whose cell (1,1) holds the base's
symbol `TCS`. -/
theorem weekly_sheet_creation_witness :
    (get_weekly_sheet [] "2025-W41" sampleBase).nrows = 100
    ∧ (get_weekly_sheet [] "2025-W41" sampleBase).ncols = 10
    ∧ gridCell (get_weekly_sheet [] "2025-W41" sampleBase).grid 1 1 = "TCS" := by
  have h := weekly_sheet_creation [] "2025-W41" sampleBase rfl
  refine ⟨?_, ?_, ?_⟩
  · rw [h.1]
    decide
  · rw [h.2.1]
    decide
  · rw [h.2.2.1 1 1 (by decide) (by decide)]
    decide

/-- C5: a run's sink trace is exactly one `clear` followed by exactly
one bulk `update` whose grid is the header row followed by every data
row of the final in-memory dataset, in dataset order. -/
theorem flush_single_clear_write (env : RunEnv) (df : Df) :
    (run_main env df).2 =
      [SinkEvent.clear,
       SinkEvent.update ((df.cols.map Value.str) ::
         (run_main env df).1.rows.map (fun r => df.cols.map r))] := rfl

/-- C4: for any input frame missing a required column,
`load_weekly_dataframe` returns a frame that has the column, empty in
every row; it keeps the row count, leaves the data of every pre-existing
column unaltered, and replaces each missing cell of a pre-existing
column with the empty string. -/
theorem load_weekly_column_completion (weekly base : RawDf) (c : String)
    (hreq : c ∈ requiredColumns)
    (hmiss : c ∉ (selectedRecords weekly base).cols) :
    c ∈ (load_weekly_dataframe weekly base).cols
    ∧ (load_weekly_dataframe weekly base).rows.length =
        (selectedRecords weekly base).rows.length
    ∧ (∀ i, i < (selectedRecords weekly base).rows.length →
        cellOf (load_weekly_dataframe weekly base).rows i c = some (some (Value.str "")))
    ∧ (∀ x, x ∈ (selectedRecords weekly base).cols → ∀ i,
        cellOf (load_weekly_dataframe weekly base).rows i x =
          filledCellOf (selectedRecords weekly base).rows i x) := by
  refine ⟨?_, ?_, ?_, ?_⟩
  · exact foldl_ensure_cols_mem requiredColumns _ c hreq
  · unfold load_weekly_dataframe
    rw [foldl_ensure_rows_length]
    simp [fillna]
  · intro i hi
    unfold load_weekly_dataframe
    apply foldl_ensure_cell_new requiredColumns (fillna (selectedRecords weekly base)) c hreq
    · exact hmiss
    · simpa [fillna] using hi
  · intro x hx i
    unfold load_weekly_dataframe
    rw [foldl_ensure_cell_preserve requiredColumns (fillna (selectedRecords weekly base)) x hx i,
      fillna_cell]

/-- Witness for C4: a weekly frame with only the three base columns
gains an empty `ROCE` column in its one row, while its `Quantity`
column's missing cell is filled with the empty string. -/
theorem load_weekly_column_completion_witness :
    "ROCE" ∈ (load_weekly_dataframe sampleWeekly sampleBaseDf).cols
    ∧ cellOf (load_weekly_dataframe sampleWeekly sampleBaseDf).rows 0 "ROCE" =
        some (some (Value.str ""))
    ∧ cellOf (load_weekly_dataframe sampleWeekly sampleBaseDf).rows 0 "Quantity" =
        filledCellOf (selectedRecords sampleWeekly sampleBaseDf).rows 0 "Quantity" := by
  have h := load_weekly_column_completion sampleWeekly sampleBaseDf "ROCE"
    (by decide) (by decide)
  exact ⟨h.1, h.2.2.1 0 (by decide), h.2.2.2 "Quantity" (by decide) 0⟩

end StockScrape
